import Mathlib

/-!
Verification of the `pipeline_plugin_i18n` locale plugin
(`src/pipeline_plugin_i18n/plugin.py` and
`src/pipeline_plugin_i18n/resources/types.py`).

Shallow embedding conventions:

* Python `dict`s are embedded as insertion-ordered association lists
  (`List (κ × β)`); `dictFind?` is `dict.__getitem__`-style first-match
  lookup, `dictContains` is `in`, `dictGetD` is `dict.get(k, default)`
  and `dictInsert` is `d[k] = v` (update in place keeping the key's
  position, append for a new key) — matching CPython semantics for
  dicts with unique keys, which is the only way the source builds them.
* `Locale = Literal["en", "pl"]` is a static-only annotation in Python,
  never checked at runtime (the spec's concrete scenario even sets the
  locale to "fr"), so `Locale` is embedded as `String`.
* `HandlerMode` is an externally-owned enum whose members expose a
  `.value` string used in error messages; it is embedded as a one-field
  structure carrying that value.
* `ConditionErrorTemplate` is an opaque one-argument callable: a Lean
  function `ι → ω` over an abstract handler-instance type `ι` and
  payload type `ω`.
* The `ContextVar` `CURRENT_LOCALE` is embedded as per-flow state: a
  single flow's view is `Option Locale` (`none` = never set in this
  flow), and the multi-flow picture is a map from flow identifiers to
  that per-flow state, reflecting `contextvars` isolation semantics.
* Python exceptions are `Except` results; mutation of the handler
  class's `ERROR_TEMPLATES` table is threaded explicitly, so a raise
  in the middle of the registration loop returns the table as mutated
  so far — exactly what the in-place Python mutation leaves behind.
-/

namespace PipelinePluginI18n

/-- Embeds `Locale = Literal["en", "pl"]` from `resources/types.py`.
Python does not enforce literal types at runtime, so any string can
flow in; the embedding uses `String`. -/
abbrev Locale := String

/-- Embeds the host framework's `HandlerMode` enum: an opaque member
with a human-readable `value` used in dict keys and error messages. -/
structure HandlerMode where
  value : String
deriving DecidableEq

/-- Modelled from the spec: `PipelinePluginI18nException` is defined in
`resources/exceptions.py`, which is not among the provided sources; the
spec describes it as the configuration error raised synchronously with
a message naming the handler class and the offending mode. It is
embedded as a record carrying that message. -/
structure PipelinePluginI18nException where
  msg : String
deriving DecidableEq

/-- A Python `KeyError`-style failure of a dict subscript, used by the
embedding of `translation[cls.BASE_LOCALE]`. -/
inductive PyErr where
  | keyError
deriving DecidableEq

/-- First-match lookup in an insertion-ordered dict (`d[k]` / `d.get(k)`). -/
def dictFind? {κ : Type} {β : Type} [DecidableEq κ] (k : κ) : List (κ × β) → Option β
  | [] => none
  | (k0, v0) :: rest => if k0 = k then some v0 else dictFind? k rest

/-- Python `k in d`. -/
def dictContains {κ : Type} {β : Type} [DecidableEq κ] (d : List (κ × β)) (k : κ) : Bool :=
  (dictFind? k d).isSome

/-- Python `d.get(k, default)`. -/
def dictGetD {κ : Type} {β : Type} [DecidableEq κ] (d : List (κ × β)) (k : κ) (dflt : β) : β :=
  (dictFind? k d).getD dflt

/-- Python `d[k] = v`: update in place if the key exists (keeping its
position), append otherwise. -/
def dictInsert {κ : Type} {β : Type} [DecidableEq κ] (k : κ) (v : β) : List (κ × β) → List (κ × β)
  | [] => [(k, v)]
  | (k0, v0) :: rest => if k0 = k then (k, v) :: rest else (k0, v0) :: dictInsert k v rest

/-- Embeds `Translation = dict[Locale, ConditionErrorTemplate]`. -/
abbrev Translation (ι ω : Type) := List (Locale × (ι → ω))

/-- Embeds `Translations = dict[HandlerMode, Translation]`. -/
abbrev Translations (ι ω : Type) := List (HandlerMode × Translation ι ω)

/-- Embeds `PipelinePluginI18n.BASE_LOCALE = "en"`. -/
def BASE_LOCALE : Locale := "en"

/-- Embeds `PipelinePluginI18n.get_locale`: `CURRENT_LOCALE.get(BASE_LOCALE)`
on the calling flow's view of the context variable (`none` when the
variable was never set in this flow). Total: it never fails. -/
def get_locale (ctx : Option Locale) : Locale :=
  ctx.getD BASE_LOCALE

/-- Embeds `PipelinePluginI18n.set_locale`: `CURRENT_LOCALE.set(locale)`
replaces the calling flow's view of the context variable. Total. -/
def set_locale (_ctx : Option Locale) (locale : Locale) : Option Locale :=
  some locale

/-- Embeds the closure `process_translation` defined inside
`register_handler`. It reads the current locale via `get_locale`, then
evaluates `translation.get(locale, translation[cls.BASE_LOCALE])`: in
Python the default argument `translation[cls.BASE_LOCALE]` is computed
eagerly, so a missing base-locale entry is a `KeyError` regardless of
whether `locale` itself is present; finally it calls the selected
template with `self` and returns its result unchanged. -/
def process_translation {ι ω : Type} (translation : Translation ι ω)
    (ctx : Option Locale) (self_ : ι) : Except PyErr ω :=
  let locale : Locale := get_locale ctx
  match dictFind? BASE_LOCALE translation with
  | none => .error .keyError
  | some base => .ok (dictGetD translation locale base self_)

/-- The type of an entry of a handler class's `ERROR_TEMPLATES` table
after this plugin may have touched it: a callable that, at failure
time, receives the ambient locale context and the failing handler
instance. `register_handler` installs `process_translation translation`
(the `functools.partial` application) into such a slot. -/
abbrev Slot (ι ω : Type) := Option Locale → ι → Except PyErr ω

/-- A handler class's `ERROR_TEMPLATES` table, keyed by `HandlerMode`. -/
abbrev ModeTable (ι ω : Type) := List (HandlerMode × Slot ι ω)

/-- The f-string raised by `register_handler` when a mode's translation
lacks the base locale. -/
def registrationErrorMsg (handlerName : String) (mode : HandlerMode) : String :=
  "Handler \"" ++ handlerName ++ "\" is missing the \"" ++ BASE_LOCALE ++
    "\" base locale translation for \"" ++ mode.value ++ "\" mode."

/-- Embeds the loop body of `PipelinePluginI18n.register_handler`:
iterate over `translations.items()` in insertion order; for each
`(mode, translation)` pair, raise `PipelinePluginI18nException` if the
base locale is missing, otherwise assign
`handler.ERROR_TEMPLATES[mode] = partial(process_translation, translation=translation)`.
The handler class's table is threaded explicitly; on a raise the table
returned is the one mutated so far (assignments made by earlier
iterations persist, as they do in Python). -/
def register_handler {ι ω : Type} (handlerName : String) (table : ModeTable ι ω) :
    Translations ι ω → Except PipelinePluginI18nException Unit × ModeTable ι ω
  | [] => (.ok (), table)
  | (mode, translation) :: rest =>
    if dictContains translation BASE_LOCALE then
      register_handler handlerName (dictInsert mode (process_translation translation) table) rest
    else
      (.error ⟨registrationErrorMsg handlerName mode⟩, table)

/-- `Except.isOk` is not uniformly available across toolchains; a local
error test keeps statements decidable. -/
def isErr {ε α : Type} : Except ε α → Bool
  | .error _ => true
  | .ok _ => false

/-- The multi-flow view of the `ContextVar` `CURRENT_LOCALE`: each
logical flow (task / request), identified here by a `Nat`, has its own
view of the variable, `none` meaning the flow (and its ancestors) never
set it. This embeds the per-context isolation semantics of Python's
`contextvars`, on which `CURRENT_LOCALE` is built. -/
abbrev FlowState := Nat → Option Locale

/-- `get_locale` as observed by flow `f` of a multi-flow state. -/
def ctxGet (s : FlowState) (f : Nat) : Locale :=
  get_locale (s f)

/-- `set_locale locale` executed by flow `f` of a multi-flow state:
`ContextVar.set` writes only the calling flow's context. -/
def ctxSet (s : FlowState) (f : Nat) (locale : Locale) : FlowState :=
  fun g => if g = f then set_locale (s f) locale else s g

/-- The process-wide state visible to `register_handler`: the
`ERROR_TEMPLATES` tables of every handler class (keyed by class name),
the caller's `translations` dict object, and the locale context. The
only Python statement in `register_handler` that writes to the heap is
`handler.ERROR_TEMPLATES[mode] = ...`, so the embedding updates only
the entry of `tables` at the handler passed in. -/
structure GState (ι ω : Type) where
  tables : List (String × ModeTable ι ω)
  transObj : Translations ι ω
  locale : Option Locale

/-- `register_handler` as a transformer of the process-wide state: it
runs the registration loop on the handler's own `ERROR_TEMPLATES`
table (taken from `tables`, empty if the class is unknown) against the
state's `translations` object, and stores the resulting table back at
that class. No other component of the state is written. -/
def register_handler_global {ι ω : Type} (handlerName : String) (s : GState ι ω) :
    Except PipelinePluginI18nException Unit × GState ι ω :=
  match register_handler handlerName (dictGetD s.tables handlerName []) s.transObj with
  | (r, t) => (r, { s with tables := dictInsert handlerName t s.tables })

section Lemmas

variable {κ β : Type} [DecidableEq κ]

theorem dictFind?_insert_self (d : List (κ × β)) (k : κ) (v : β) :
    dictFind? k (dictInsert k v d) = some v := by
  induction d with
  | nil => simp [dictInsert, dictFind?]
  | cons hd tl ih =>
    obtain ⟨k0, v0⟩ := hd
    by_cases h : k0 = k <;> simp [dictInsert, dictFind?, h, ih]

theorem dictFind?_insert_ne (d : List (κ × β)) (k k' : κ) (v : β) (h : k' ≠ k) :
    dictFind? k' (dictInsert k v d) = dictFind? k' d := by
  have hne : ¬ k = k' := fun hh => h hh.symm
  induction d with
  | nil => simp [dictInsert, dictFind?, hne]
  | cons hd tl ih =>
    obtain ⟨k0, v0⟩ := hd
    by_cases h0 : k0 = k
    · subst h0
      simp [dictInsert, dictFind?, hne]
    · simp [dictInsert, dictFind?, h0, ih]

theorem dictFind?_eq_none_of_not_mem (d : List (κ × β)) (k : κ)
    (h : k ∉ d.map Prod.fst) : dictFind? k d = none := by
  induction d with
  | nil => rfl
  | cons hd tl ih =>
    obtain ⟨k0, v0⟩ := hd
    simp only [List.map_cons, List.mem_cons] at h
    push_neg at h
    have hne : ¬ k0 = k := fun hh => h.1 hh.symm
    simp [dictFind?, hne, ih h.2]

theorem dictContains_iff_find? (d : List (κ × β)) (k : κ) :
    dictContains d k = true ↔ ∃ v, dictFind? k d = some v := by
  unfold dictContains
  cases h : dictFind? k d <;> simp [Option.isSome, h]

end Lemmas

section RegisterLemmas

variable {ι ω : Type}

/-- Modes that never occur in the `translations` argument are never
assigned by the registration loop, whether it raises or returns. -/
theorem register_handler_frame (handlerName : String) (ts : Translations ι ω)
    (table : ModeTable ι ω) (m : HandlerMode) (hm : dictFind? m ts = none) :
    dictFind? m (register_handler handlerName table ts).2 = dictFind? m table := by
  induction ts generalizing table with
  | nil => rfl
  | cons hd tl ih =>
    obtain ⟨mode, translation⟩ := hd
    have hne : mode ≠ m := by
      intro h
      simp [dictFind?, h] at hm
    have hm' : dictFind? m tl = none := by
      simpa [dictFind?, hne] using hm
    by_cases hb : dictContains translation BASE_LOCALE
    · rw [register_handler, if_pos hb, ih _ hm', dictFind?_insert_ne _ _ _ _ (Ne.symm hne)]
    · rw [register_handler, if_neg hb]

/-- When the loop completes without raising, every mode it saw has the
base-locale entry in its translation. -/
theorem register_handler_ok_validated (handlerName : String) (ts : Translations ι ω)
    (table : ModeTable ι ω) (hok : isErr (register_handler handlerName table ts).1 = false)
    (mode : HandlerMode) (translation : Translation ι ω) (hmem : (mode, translation) ∈ ts) :
    dictContains translation BASE_LOCALE = true := by
  induction ts generalizing table with
  | nil => cases hmem
  | cons hd tl ih =>
    obtain ⟨m0, tr0⟩ := hd
    by_cases hb : dictContains tr0 BASE_LOCALE
    · rw [register_handler, if_pos hb] at hok
      rcases List.mem_cons.mp hmem with heq | hmem'
      · cases heq; exact hb
      · exact ih _ hok hmem'
    · rw [register_handler, if_neg hb] at hok
      simp [isErr] at hok

/-- When the loop completes without raising and the keys of the
`translations` argument are distinct (always true of a Python dict),
the slot finally installed for a mode is `process_translation` bound to
that mode's translation. -/
theorem register_handler_ok_find (handlerName : String) (ts : Translations ι ω)
    (table : ModeTable ι ω) (hok : isErr (register_handler handlerName table ts).1 = false)
    (hnd : (ts.map Prod.fst).Nodup) (mode : HandlerMode) (translation : Translation ι ω)
    (hfind : dictFind? mode ts = some translation) :
    dictFind? mode (register_handler handlerName table ts).2 =
      some (process_translation translation) := by
  induction ts generalizing table with
  | nil => simp [dictFind?] at hfind
  | cons hd tl ih =>
    obtain ⟨m0, tr0⟩ := hd
    have hb : dictContains tr0 BASE_LOCALE := by
      by_contra hb
      rw [register_handler, if_neg hb] at hok
      simp [isErr] at hok
    rw [register_handler, if_pos hb] at hok ⊢
    by_cases hm : m0 = mode
    · subst hm
      have : tr0 = translation := by simpa [dictFind?] using hfind
      subst this
      have hnot : dictFind? m0 tl = none :=
        dictFind?_eq_none_of_not_mem _ _ (by simpa using (List.nodup_cons.mp hnd).1)
      rw [register_handler_frame _ _ _ _ hnot, dictFind?_insert_self]
    · have hfind' : dictFind? mode tl = some translation := by
        simpa [dictFind?, hm] using hfind
      exact ih _ hok (List.nodup_cons.mp hnd).2 hfind'

end RegisterLemmas

/-- `needle` is a leading segment of `hay` (over character lists). -/
def listIsPre : List Char → List Char → Bool
  | [], _ => true
  | _ :: _, [] => false
  | a :: as, b :: bs => a = b && listIsPre as bs

/-- `needle` occurs contiguously somewhere in `hay`. -/
def listHasInf (needle : List Char) : List Char → Bool
  | [] => listIsPre needle []
  | b :: bs => listIsPre needle (b :: bs) || listHasInf needle bs

/-- Python's `needle in hay` substring test, used to state that the
registration error message mentions the handler class name and the
offending mode. -/
def strContainsSub (hay needle : String) : Bool :=
  listHasInf needle.toList hay.toList

theorem listIsPre_append (ns rest : List Char) : listIsPre ns (ns ++ rest) = true := by
  induction ns with
  | nil => rfl
  | cons a as ih => simp [listIsPre, ih]

theorem listHasInf_nil_needle (l : List Char) : listHasInf [] l = true := by
  cases l <;> simp [listHasInf, listIsPre]

theorem listHasInf_append (pre ns post : List Char) :
    listHasInf ns (pre ++ ns ++ post) = true := by
  induction pre with
  | nil =>
    cases hns : ns with
    | nil => simpa [hns] using listHasInf_nil_needle post
    | cons a as =>
      subst hns
      simp only [List.nil_append, List.cons_append, listHasInf, Bool.or_eq_true]
      exact Or.inl (by simpa using listIsPre_append (a :: as) post)
  | cons b bs ih =>
    simp only [List.cons_append, listHasInf, Bool.or_eq_true]
    exact Or.inr (by simpa [List.append_assoc] using ih)

theorem strContainsSub_msg_handlerName (hname : String) (mode : HandlerMode) :
    strContainsSub (registrationErrorMsg hname mode) hname = true := by
  unfold strContainsSub registrationErrorMsg String.toList
  simp only [String.data_append, List.append_assoc]
  simpa [List.append_assoc] using
    listHasInf_append ("Handler \"".data) hname.data
      (("\" is missing the \"").data ++ BASE_LOCALE.data ++
        ("\" base locale translation for \"").data ++ mode.value.data ++ ("\" mode.").data)

theorem strContainsSub_msg_modeValue (hname : String) (mode : HandlerMode) :
    strContainsSub (registrationErrorMsg hname mode) mode.value = true := by
  unfold strContainsSub registrationErrorMsg String.toList
  simp only [String.data_append, List.append_assoc]
  simpa [List.append_assoc] using
    listHasInf_append
      (("Handler \"").data ++ hname.data ++ ("\" is missing the \"").data ++
        BASE_LOCALE.data ++ ("\" base locale translation for \"").data)
      mode.value.data (("\" mode.").data)

theorem dictFind?_mem {κ β : Type} [DecidableEq κ] (d : List (κ × β)) (k : κ) (v : β)
    (h : dictFind? k d = some v) : (k, v) ∈ d := by
  induction d with
  | nil => simp [dictFind?] at h
  | cons hd tl ih =>
    obtain ⟨k0, v0⟩ := hd
    by_cases h0 : k0 = k
    · subst h0
      simp [dictFind?] at h
      simp [h]
    · have := ih (by simpa [dictFind?, h0] using h)
      exact List.mem_cons_of_mem _ this

/-- The registration loop raises exactly when some mode's translation
lacks the base-locale entry. -/
theorem register_handler_raises_iff {ι ω : Type} (hname : String)
    (table : ModeTable ι ω) (ts : Translations ι ω) :
    isErr (register_handler hname table ts).1 = true ↔
      ∃ p ∈ ts, dictContains p.2 BASE_LOCALE = false := by
  induction ts generalizing table with
  | nil => simp [register_handler, isErr]
  | cons hd tl ih =>
    obtain ⟨m0, tr0⟩ := hd
    by_cases hb : dictContains tr0 BASE_LOCALE
    · rw [register_handler, if_pos hb, ih]
      constructor
      · rintro ⟨p, hp, hpb⟩
        exact ⟨p, List.mem_cons_of_mem _ hp, hpb⟩
      · rintro ⟨p, hp, hpb⟩
        rcases List.mem_cons.mp hp with heq | hmem
        · subst heq; simp [hb] at hpb
        · exact ⟨p, hmem, hpb⟩
    · rw [register_handler, if_neg hb]
      refine ⟨fun _ => ⟨(m0, tr0), List.mem_cons_self _ _, ?_⟩, fun _ => rfl⟩
      simpa using hb

/-- When the registration loop raises, the exception's message is the
f-string naming the handler class and the first offending mode. -/
theorem register_handler_error_msg {ι ω : Type} (hname : String)
    (table : ModeTable ι ω) (ts : Translations ι ω)
    (e : PipelinePluginI18nException)
    (h : (register_handler hname table ts).1 = Except.error e) :
    ∃ p ∈ ts, dictContains p.2 BASE_LOCALE = false ∧
      e = ⟨registrationErrorMsg hname p.1⟩ := by
  induction ts generalizing table with
  | nil => simp [register_handler] at h
  | cons hd tl ih =>
    obtain ⟨m0, tr0⟩ := hd
    by_cases hb : dictContains tr0 BASE_LOCALE
    · rw [register_handler, if_pos hb] at h
      obtain ⟨p, hp, hpb, hpe⟩ := ih _ h
      exact ⟨p, List.mem_cons_of_mem _ hp, hpb, hpe⟩
    · rw [register_handler, if_neg hb] at h
      refine ⟨(m0, tr0), List.mem_cons_self _ _, by simpa using hb, ?_⟩
      simpa using h.symm

/-! Concrete instances used by counterexamples and witnesses. -/

/-- A mode named `M1`, whose translation will carry the base locale. -/
def c1M1 : HandlerMode := ⟨"M1"⟩

/-- A mode named `M2`, whose translation will lack the base locale. -/
def c1M2 : HandlerMode := ⟨"M2"⟩

/-- A trivial error template over unit instances and payloads. -/
def unitTpl : Unit → Unit := fun _ => ()

/-- A `translations` table whose first mode is valid and whose second
mode lacks the base-locale entry. -/
def c1Ts : Translations Unit Unit := [(c1M1, [("en", unitTpl)]), (c1M2, [])]

/-- The spec's `Mode.MISSING`. -/
def mMissing : HandlerMode := ⟨"MISSING"⟩

/-- A mode that no demo `translations` table mentions. -/
def mOther : HandlerMode := ⟨"OTHER"⟩

/-- A concrete base-locale template over `Nat`. -/
def demoTplEn : Nat → Nat := fun n => n + 1

/-- A concrete `"pl"` template over `Nat`, distinguishable from
`demoTplEn` by its output. -/
def demoTplPl : Nat → Nat := fun n => n + 2

/-- The spec's `{"en": T_en, "pl": T_pl}` translation. -/
def demoTranslation : Translation Nat Nat := [("en", demoTplEn), ("pl", demoTplPl)]

/-- The spec's `{Mode.MISSING: {"en": T_en, "pl": T_pl}}` table. -/
def demoTs : Translations Nat Nat := [(mMissing, demoTranslation)]

/-- A pre-existing (non-localized) `ERROR_TEMPLATES` entry. -/
def demoSlot : Slot Unit Unit := fun _ _ => Except.ok ()

/-- A handler class table holding a pre-existing slot for `mOther`. -/
def demoTable : ModeTable Unit Unit := [(mOther, demoSlot)]

/-- A process state with no registered tables, an empty translations
object and an unset locale. -/
def demoGState : GState Unit Unit := { tables := [], transObj := [], locale := none }

/-! Claim theorems. -/

/-- C1 counterexample: with `translations` listing valid mode `M1`
before invalid mode `M2`, `register_handler` raises the configuration
error yet `M1`'s slot HAS been installed (the initially empty table now
contains `M1`), so the slot table is not left completely unmodified:
validation and installation are interleaved, not two-phase. -/
theorem register_not_all_or_nothing :
    isErr (register_handler "DemoHandler" ([] : ModeTable Unit Unit) c1Ts).1 = true ∧
    dictContains (register_handler "DemoHandler" ([] : ModeTable Unit Unit) c1Ts).2 c1M1 = true ∧
    dictContains ([] : ModeTable Unit Unit) c1M1 = false :=
  ⟨rfl, rfl, rfl⟩

/-- C1 amended: when some mode's translation lacks the base locale,
`register_handler` raises the configuration error for the first such
mode in iteration order, but the modes iterated before it have their
resolvers installed (partial installation); the offending mode and all
later modes are left unmodified. -/
theorem register_installs_earlier_modes_on_error (ι ω : Type) (hname : String)
    (table : ModeTable ι ω) (pre rest : Translations ι ω) (badMode : HandlerMode)
    (badTr : Translation ι ω)
    (hpre : ∀ p ∈ pre, dictContains p.2 BASE_LOCALE = true)
    (hbad : dictContains badTr BASE_LOCALE = false) :
    register_handler hname table (pre ++ (badMode, badTr) :: rest) =
      (Except.error ⟨registrationErrorMsg hname badMode⟩,
        List.foldl (fun t p => dictInsert p.1 (process_translation p.2) t) table pre) := by
  induction pre generalizing table with
  | nil => simp [register_handler, hbad]
  | cons p ps ih =>
    obtain ⟨m0, tr0⟩ := p
    have hb : dictContains tr0 BASE_LOCALE = true := hpre _ (List.mem_cons_self _ _)
    rw [List.cons_append, register_handler, if_pos hb,
      ih _ (fun q hq => hpre q (List.mem_cons_of_mem _ hq))]
    rfl

/-- Witness for the amended C1 at the concrete two-mode table. -/
theorem register_installs_earlier_modes_witness :
    register_handler "DemoHandler" ([] : ModeTable Unit Unit) c1Ts =
      (Except.error ⟨registrationErrorMsg "DemoHandler" c1M2⟩,
        List.foldl (fun t p => dictInsert p.1 (process_translation p.2) t)
          ([] : ModeTable Unit Unit) [(c1M1, [("en", unitTpl)])]) :=
  register_installs_earlier_modes_on_error Unit Unit "DemoHandler" []
    [(c1M1, [("en", unitTpl)])] [] c1M2 []
    (fun p hp => by rw [List.mem_singleton.mp hp]; rfl) rfl

/-- C2: `register_handler` raises the configuration error iff some
mode's translation lacks the base-locale entry; when it raises, the
exception message contains the handler class's name and the offending
mode's value; with no offending mode it returns without raising. -/
theorem register_raises_iff_missing_base (ι ω : Type) (hname : String)
    (table : ModeTable ι ω) (ts : Translations ι ω) :
    (isErr (register_handler hname table ts).1 = true ↔
      ∃ p ∈ ts, dictContains p.2 BASE_LOCALE = false) ∧
    (∀ e, (register_handler hname table ts).1 = Except.error e →
      strContainsSub e.msg hname = true ∧
      ∃ p ∈ ts, dictContains p.2 BASE_LOCALE = false ∧
        strContainsSub e.msg p.1.value = true) := by
  refine ⟨register_handler_raises_iff hname table ts, fun e he => ?_⟩
  obtain ⟨p, hp, hpb, rfl⟩ := register_handler_error_msg hname table ts e he
  exact ⟨strContainsSub_msg_handlerName hname p.1, p, hp, hpb,
    strContainsSub_msg_modeValue hname p.1⟩

/-- Witness for C2: at the concrete two-mode table the call raises, and
the raised message names the handler class. -/
theorem register_raises_iff_missing_base_witness :
    isErr (register_handler "DemoHandler" ([] : ModeTable Unit Unit) c1Ts).1 = true ∧
    strContainsSub (registrationErrorMsg "DemoHandler" c1M2) "DemoHandler" = true :=
  ⟨(register_raises_iff_missing_base Unit Unit "DemoHandler" [] c1Ts).1.mpr
      ⟨(c1M2, []), by simp [c1Ts], rfl⟩,
    ((register_raises_iff_missing_base Unit Unit "DemoHandler" [] c1Ts).2
      ⟨registrationErrorMsg "DemoHandler" c1M2⟩ rfl).1⟩

/-- C3 counterexample: the spec's concrete input
`{Mode.MISSING: {"en": tmpl_en}}` contains the base locale, so
`register_handler` returns normally — it does not raise. -/
theorem register_base_only_translation_succeeds :
    (register_handler "SampleHandler" ([] : ModeTable Unit Unit)
      [(mMissing, [("en", unitTpl)])]).1 = Except.ok () :=
  rfl

/-- C3 amended: the input that raises is the one missing the base
locale, `{Mode.MISSING: {"pl": tmpl_pl}}`: the error message mentions
`MISSING` and `en`; the spec's original input (base locale present,
no `"pl"`) instead succeeds. -/
theorem register_missing_base_locale_raises :
    isErr (register_handler "SampleHandler" ([] : ModeTable Unit Unit)
        [(mMissing, [("pl", unitTpl)])]).1 = true ∧
    (register_handler "SampleHandler" ([] : ModeTable Unit Unit)
        [(mMissing, [("pl", unitTpl)])]).1 =
      Except.error ⟨registrationErrorMsg "SampleHandler" mMissing⟩ ∧
    strContainsSub (registrationErrorMsg "SampleHandler" mMissing) "MISSING" = true ∧
    strContainsSub (registrationErrorMsg "SampleHandler" mMissing) "en" = true ∧
    (register_handler "SampleHandler" ([] : ModeTable Unit Unit)
        [(mMissing, [("en", unitTpl)])]).1 = Except.ok () := by
  refine ⟨rfl, rfl, ?_, ?_, rfl⟩ <;> decide

/-- C4: after a successful registration, for any mode of the table and
any current locale that is not a key of that mode's translation, the
installed resolver returns exactly the base-locale template applied to
the same handler instance. -/
theorem resolver_falls_back_to_base_locale (ι ω : Type) (hname : String)
    (table : ModeTable ι ω) (ts : Translations ι ω) (mode : HandlerMode)
    (translation : Translation ι ω) (ctx : Option Locale) (inst : ι) (tEn : ι → ω)
    (hok : isErr (register_handler hname table ts).1 = false)
    (hnd : (ts.map Prod.fst).Nodup)
    (hts : dictFind? mode ts = some translation)
    (hmiss : dictFind? (get_locale ctx) translation = none)
    (hbase : dictFind? BASE_LOCALE translation = some tEn) :
    dictFind? mode (register_handler hname table ts).2 =
      some (process_translation translation) ∧
    process_translation translation ctx inst = Except.ok (tEn inst) := by
  refine ⟨register_handler_ok_find hname ts table hok hnd mode translation hts, ?_⟩
  simp [process_translation, hbase, dictGetD, hmiss]

/-- Witness for C4: registering `{MISSING: {"en": T_en, "pl": T_pl}}`
and resolving under the unregistered locale `"fr"` yields `T_en 5`. -/
theorem resolver_falls_back_witness :
    dictFind? mMissing (register_handler "DemoHandler" ([] : ModeTable Nat Nat) demoTs).2 =
      some (process_translation demoTranslation) ∧
    process_translation demoTranslation (some "fr") 5 = Except.ok (demoTplEn 5) :=
  resolver_falls_back_to_base_locale Nat Nat "DemoHandler" [] demoTs mMissing
    demoTranslation (some "fr") 5 demoTplEn rfl (by simp [demoTs]) rfl rfl rfl

/-- C5: after a successful registration, when the current locale (just
set via `set_locale`) is a key of the mode's translation, the installed
resolver invokes exactly that locale's template on the handler instance
and returns its result unchanged. -/
theorem resolver_selects_current_locale_template (ι ω : Type) (hname : String)
    (table : ModeTable ι ω) (ts : Translations ι ω) (mode : HandlerMode)
    (translation : Translation ι ω) (loc : Locale) (tpl : ι → ω) (ctx : Option Locale)
    (inst : ι)
    (hok : isErr (register_handler hname table ts).1 = false)
    (hnd : (ts.map Prod.fst).Nodup)
    (hts : dictFind? mode ts = some translation)
    (hloc : dictFind? loc translation = some tpl) :
    dictFind? mode (register_handler hname table ts).2 =
      some (process_translation translation) ∧
    process_translation translation (set_locale ctx loc) inst = Except.ok (tpl inst) := by
  refine ⟨register_handler_ok_find hname ts table hok hnd mode translation hts, ?_⟩
  have hcont : dictContains translation BASE_LOCALE = true :=
    register_handler_ok_validated hname ts table hok mode translation
      (dictFind?_mem ts mode translation hts)
  obtain ⟨base, hbase⟩ := (dictContains_iff_find? translation BASE_LOCALE).mp hcont
  simp [process_translation, hbase, dictGetD, set_locale, get_locale, hloc]

/-- Witness for C5: registering `{MISSING: {"en": T_en, "pl": T_pl}}`,
setting the locale to `"pl"` and resolving yields `T_pl 3`, not
`T_en 3`. -/
theorem resolver_selects_witness :
    dictFind? mMissing (register_handler "DemoHandler" ([] : ModeTable Nat Nat) demoTs).2 =
      some (process_translation demoTranslation) ∧
    process_translation demoTranslation (set_locale none "pl") 3 =
      Except.ok (demoTplPl 3) :=
  resolver_selects_current_locale_template Nat Nat "DemoHandler" [] demoTs mMissing
    demoTranslation "pl" demoTplPl none 3 rfl (by simp [demoTs]) rfl rfl

/-- C6: in a flow where the locale was never set (its view of
`CURRENT_LOCALE` is unset), `get_locale` returns the base locale, which
is `"en"`; the operation is total and cannot fail. -/
theorem get_locale_defaults_to_base (s : FlowState) (g : Nat) (h : s g = none) :
    ctxGet s g = BASE_LOCALE ∧ BASE_LOCALE = "en" :=
  ⟨by simp [ctxGet, get_locale, h], rfl⟩

/-- Witness for C6 in the fresh multi-flow state. -/
theorem get_locale_defaults_witness :
    ctxGet (fun _ => none) 0 = BASE_LOCALE ∧ BASE_LOCALE = "en" :=
  get_locale_defaults_to_base (fun _ => none) 0 rfl

/-- C7: `set_locale l` always succeeds (it is total), and a subsequent
`get_locale` in the same flow with no intervening `set_locale` returns
exactly `l`, both in the single-flow and the multi-flow view. -/
theorem set_locale_then_get_locale (ctx : Option Locale) (l : Locale) (s : FlowState)
    (f : Nat) :
    get_locale (set_locale ctx l) = l ∧ ctxGet (ctxSet s f l) f = l :=
  ⟨rfl, by simp [ctxGet, ctxSet, set_locale, get_locale]⟩

/-- C8: if flow `fA` sets the locale to `"pl"` and a different flow
`fB` never set one, `fB` still reads the base locale: flows never
observe each other's locale, per the `contextvars` isolation that
`CURRENT_LOCALE` is built on. -/
theorem locale_isolation_between_flows (s : FlowState) (fA fB : Nat)
    (hne : fA ≠ fB) (hB : s fB = none) :
    ctxGet (ctxSet s fA "pl") fB = BASE_LOCALE := by
  have hBA : ¬ fB = fA := fun h => hne h.symm
  simp [ctxGet, ctxSet, hBA, hB, get_locale]

/-- Witness for C8 with flows `0` and `1` on the fresh state. -/
theorem locale_isolation_witness :
    ctxGet (ctxSet (fun _ => none) 0 "pl") 1 = BASE_LOCALE :=
  locale_isolation_between_flows (fun _ => none) 0 1 (by decide) rfl

/-- C9: a `register_handler` call, raising or not, leaves the locale
context unchanged, does not mutate the `translations` object, and
leaves the `ERROR_TEMPLATES` table of every other handler class
untouched. -/
theorem register_frame_effects (ι ω : Type) (hname : String) (s : GState ι ω) :
    (register_handler_global hname s).2.locale = s.locale ∧
    (register_handler_global hname s).2.transObj = s.transObj ∧
    ∀ c, c ≠ hname →
      dictFind? c (register_handler_global hname s).2.tables =
        dictFind? c s.tables := by
  unfold register_handler_global
  obtain ⟨r, t⟩ := register_handler hname (dictGetD s.tables hname []) s.transObj
  exact ⟨rfl, rfl, fun c hc => dictFind?_insert_ne s.tables hname c t hc⟩

/-- Witness for C9 at a concrete state and the unrelated class
`Other`. -/
theorem register_frame_effects_witness :
    (register_handler_global "DemoHandler" demoGState).2.locale = demoGState.locale ∧
    dictFind? "Other" (register_handler_global "DemoHandler" demoGState).2.tables =
      dictFind? "Other" demoGState.tables :=
  ⟨(register_frame_effects Unit Unit "DemoHandler" demoGState).1,
    (register_frame_effects Unit Unit "DemoHandler" demoGState).2.2 "Other" (by decide)⟩

/-- C10: `register_handler` on an empty `translations` table returns
normally and leaves the handler's table identical; and for any
`translations` table, slots at modes not appearing in it keep their
previous values, whether or not the call raises. -/
theorem register_empty_and_untouched_modes (ι ω : Type) (hname : String)
    (table : ModeTable ι ω) (ts : Translations ι ω) (m : HandlerMode)
    (hm : dictFind? m ts = none) :
    register_handler hname table ([] : Translations ι ω) = (Except.ok (), table) ∧
    dictFind? m (register_handler hname table ts).2 = dictFind? m table :=
  ⟨rfl, register_handler_frame hname ts table m hm⟩

/-- Witness for C10: a pre-existing slot at mode `OTHER` survives a
registration whose table does not mention `OTHER`. -/
theorem register_empty_witness :
    register_handler "DemoHandler" demoTable ([] : Translations Unit Unit) =
      (Except.ok (), demoTable) ∧
    dictFind? mOther (register_handler "DemoHandler" demoTable c1Ts).2 =
      dictFind? mOther demoTable :=
  register_empty_and_untouched_modes Unit Unit "DemoHandler" demoTable c1Ts mOther rfl

end PipelinePluginI18n
